import Mathlib

/-!
# Verification of the x25fs in-memory filesystem core

A shallow embedding of the x25fs FUSE filesystem (Go) into Lean 4:
the node tree (`Dir`, `File`), the file data operations (`File.Read`,
`File.Write`, `File.Setattr`), the directory operations (`Dir.Mkdir`,
`Dir.Remove`, `Dir.Rename`), the rename lock-ordering discipline, and the
snapshot codec with its persistence envelope (`SerializeDir`,
`DeserializeDir`, `SaveData`, `LoadData`).

Modelling conventions:
- Go byte slices become `List Nat`; Go `uint32`/`uint64`/`time.Time` values
  become `Nat` (no arithmetic in the embedded code paths can overflow a
  64-bit counter for the quantities the theorems range over, and
  timestamps are opaque instants threaded in as a `now` parameter wherever
  the source calls `time.Now()`).
- Methods that mutate their receiver in place become state-passing
  functions returning the updated receiver together with the Go return
  value; an early `return err` in Go corresponds to returning the receiver
  unchanged with `.error e`, which is faithful because the Go code performs
  no mutation before those returns (except where it does, which is exactly
  what the `Setattr` analysis exposes).
- Go `syscall` errnos are mapped to the specification's error taxonomy:
  `EINVAL ↦ InvalidName`, `EEXIST ↦ AlreadyExists`,
  `EPERM/EACCES ↦ PermissionDenied`, `ENOENT ↦ NotFound`,
  `EFBIG ↦ TooLarge`.
- The `map[string]fs.Node` children maps become association lists with
  map-update semantics (`insertChild` replaces any existing binding).
- The msgpack codec, the xbin25 encryption provider and the disk are
  opaque collaborators; `SaveData`/`LoadData` are parametrised by an
  abstract encoder/decoder pair for the combined
  serialize-encrypt / decrypt-deserialize transformation.
-/

/-- The specification's error taxonomy (spec §7), the image of the Go
`syscall` errnos actually returned by the embedded operations. -/
inductive Err where
  | NotFound
  | AlreadyExists
  | PermissionDenied
  | InvalidName
  | TooLarge
  | VersionMismatch
  | CorruptPayload
deriving DecidableEq, Repr

/-- The subset of `fuse.Attr` fields the x25fs code reads or writes:
inode, mode bits, owner uid/gid, size, and the three timestamps. -/
structure Attr where
  Inode : Nat
  Mode : Nat
  Uid : Nat
  Gid : Nat
  Size : Nat
  Atime : Nat
  Mtime : Nat
  Ctime : Nat
deriving DecidableEq, Repr

/-- `const MAX_FILE_SIZE = 536870912` (file.go): the 512 MiB cap. -/
def MAX_FILE_SIZE : Nat := 536870912

/-- `os.ModeDir` (bit 31 of a Go `os.FileMode`). -/
def MODE_DIR : Nat := 2147483648

/-- `os.ModeSetuid` (bit 23 of a Go `os.FileMode`). -/
def MODE_SETUID : Nat := 8388608

/-- `os.ModeSetgid` (bit 22 of a Go `os.FileMode`). -/
def MODE_SETGID : Nat := 4194304

/-- `os.ModeSticky` (bit 20 of a Go `os.FileMode`). -/
def MODE_STICKY : Nat := 1048576

/-- The `File` node of file.go: attributes plus an owned byte buffer
(the `sync.RWMutex` guards the two fields and has no value content). -/
structure File where
  Attributes : Attr
  Data : List Nat
deriving DecidableEq, Repr

/-- `File.Read` (file.go lines 133-155). Returns `res.Data` wrapped in
`Except` to record that every path returns `nil` error: the requested
range `[offset, offset+size)` clamped to the buffer, and `[]` when the
offset is at or past end-of-data. -/
def File.Read (file : File) (offset size : Nat) : Except Err (List Nat) :=
  if offset ≥ file.Data.length then
    .ok []
  else
    let rEnd := if offset + size > file.Data.length then file.Data.length
                else offset + size
    .ok ((file.Data.drop offset).take (rEnd - offset))

/-- `File.Write` (file.go lines 157-198). The size-cap guard precedes any
mutation; on the grow path a fresh zero-extended buffer of length
`newSize` replaces the old one (the `newCapacity` doubling computation
only tunes allocation capacity and has no observable effect on contents,
so it is not represented); then `copy(file.Data[offset:], req.Data)`
overwrites `reqLen` bytes at `offset`. Returns the updated file and
`res.Size`. -/
def File.Write (file : File) (offset : Nat) (reqData : List Nat) (now : Nat) :
    File × Except Err Nat :=
  let reqLen := reqData.length
  let newSize := offset + reqLen
  if newSize > MAX_FILE_SIZE then
    (file, .error .TooLarge)
  else
    let fileLen := file.Data.length
    let d1 :=
      if newSize > fileLen then
        file.Data ++ List.replicate (newSize - fileLen) 0
      else if offset + reqLen > fileLen then
        file.Data.take (offset + reqLen)
      else
        file.Data
    let d2 := d1.take offset ++ reqData ++ d1.drop (offset + reqLen)
    ({ Attributes := { file.Attributes with Size := d2.length, Mtime := now },
       Data := d2 },
     .ok reqLen)

/-- The `req.Valid` presence mask of a `fuse.SetattrRequest`, restricted
to the six fields file.go consults. -/
structure SetattrValid where
  mode : Bool
  uid : Bool
  gid : Bool
  atime : Bool
  mtime : Bool
  size : Bool
deriving DecidableEq, Repr

/-- The fields of a `fuse.SetattrRequest` that file.go reads. -/
structure SetattrRequest where
  valid : SetattrValid
  mode : Nat
  uid : Nat
  gid : Nat
  atime : Nat
  mtime : Nat
  size : Nat
deriving DecidableEq, Repr

/-- The first phase of `File.Setattr` (file.go lines 54-72): mode, uid,
gid, atime and mtime are assigned to `file.Attributes` in order, each
under its presence-mask bit. -/
def applyMaskedAttrs (a0 : Attr) (req : SetattrRequest) : Attr :=
  let a1 := if req.valid.mode then { a0 with Mode := req.mode } else a0
  let a2 := if req.valid.uid then { a1 with Uid := req.uid } else a1
  let a3 := if req.valid.gid then { a2 with Gid := req.gid } else a2
  let a4 := if req.valid.atime then { a3 with Atime := req.atime } else a3
  if req.valid.mtime then { a4 with Mtime := req.mtime } else a4

/-- `File.Setattr` (file.go lines 46-97), in the source's statement order:
mode, uid, gid, atime and mtime are applied to `file.Attributes` first
(`applyMaskedAttrs`), each under its mask bit; only then does the size
branch run, and its `EFBIG` early return therefore leaves those earlier
assignments in place. On a size shrink the buffer is truncated, on a
growth within the cap it is zero-filled, and any selected size sets
`Size` and refreshes `Mtime` to now. -/
def File.Setattr (file : File) (req : SetattrRequest) (now : Nat) :
    File × Except Err Attr :=
  let a5 := applyMaskedAttrs file.Attributes req
  if req.valid.size then
    let currentSize := file.Data.length
    let newSize := req.size
    if newSize < currentSize then
      let attrs := { a5 with Size := req.size, Mtime := now }
      ({ Attributes := attrs, Data := file.Data.take newSize }, .ok attrs)
    else if newSize > currentSize then
      if newSize > MAX_FILE_SIZE then
        ({ Attributes := a5, Data := file.Data }, .error .TooLarge)
      else
        let attrs := { a5 with Size := req.size, Mtime := now }
        ({ Attributes := attrs,
           Data := file.Data ++ List.replicate (newSize - currentSize) 0 },
         .ok attrs)
    else
      let attrs := { a5 with Size := req.size, Mtime := now }
      ({ Attributes := attrs, Data := file.Data }, .ok attrs)
  else
    ({ Attributes := a5, Data := file.Data }, .ok a5)

/-! ## The node tree (node.go) -/

mutual
/-- The `Dir` node of node.go: attributes, the children map (modelled as
an association list), and the shared `*xbin25.XBin25Config` reference
(modelled as an opaque identifier). -/
inductive Dir where
  | mk : Attr → ChildList → Nat → Dir

/-- `fs.Node`: either a directory or a file. -/
inductive Node where
  | dirN : Dir → Node
  | fileN : Attr → List Nat → Node

/-- The `map[string]fs.Node` children mapping as an association list. -/
inductive ChildList where
  | nil : ChildList
  | cons : String → Node → ChildList → ChildList
end

/-- The `Attributes` field of a `Dir`. -/
def Dir.Attributes : Dir → Attr
  | .mk a _ _ => a

/-- The `Children` field of a `Dir`. -/
def Dir.Children : Dir → ChildList
  | .mk _ c _ => c

/-- The `Config` field of a `Dir`. -/
def Dir.Config : Dir → Nat
  | .mk _ _ g => g

/-- Association-list lookup: `directory.Children[name]`. -/
def childLookup : ChildList → String → Option Node
  | .nil, _ => none
  | .cons n v rest, name => if n = name then some v else childLookup rest name

/-- The `_, exists := directory.Children[name]` test. -/
def childExists (cs : ChildList) (name : String) : Bool :=
  (childLookup cs name).isSome

/-- `delete(m, name)`: removes every binding of `name` (a Go map holds at
most one). -/
def eraseChild : ChildList → String → ChildList
  | .nil, _ => .nil
  | .cons n v rest, name =>
    if n = name then eraseChild rest name
    else .cons n v (eraseChild rest name)

/-- `m[name] = v`: map-update semantics, replacing any existing binding. -/
def insertChild (cs : ChildList) (name : String) (v : Node) : ChildList :=
  .cons name v (eraseChild cs name)

/-- Modelled from the spec: the `ValidateName` helper is referenced by
`Create`, `Mkdir` and `Remove` in node.go but its definition is not among
the provided sources. Spec §4.1 and §8: those operations fail
`InvalidName` for a name that is empty, `"."`, `".."`, or contains a path
separator. -/
def ValidateName (name : String) : Except Err Unit :=
  if name = "" ∨ name = "." ∨ name = ".." ∨ name.toList.contains '/' then
    .error .InvalidName
  else
    .ok ()

/-- `hasWritePermission` (node.go lines 104-112): owner triad if the uid
matches, else group triad if the gid matches, else the other triad. -/
def hasWritePermission (uid gid : Nat) (attr : Attr) : Bool :=
  if uid = attr.Uid then attr.Mode &&& 0o200 ≠ 0
  else if gid = attr.Gid then attr.Mode &&& 0o020 ≠ 0
  else attr.Mode &&& 0o002 ≠ 0

/-- The fields of a `fuse.MkdirRequest` that node.go reads (`req.Header`
carries the caller's uid/gid). -/
structure MkdirReq where
  Name : String
  Mode : Nat
  Uid : Nat
  Gid : Nat
deriving DecidableEq, Repr

/-- `Dir.Mkdir` (node.go lines 242-288). Check order as in the source:
name validation, existence, owner-uid equality, owner-gid equality; on
success the child directory gets the next inode
(`GetInodeAndIncrease()`, modelled by threading the counter), mode
`os.ModeDir | (req.Mode.Perm() & 0o777)`, fresh timestamps, the caller's
uid/gid, an empty children map and the parent's config; the parent's
ctime/mtime are refreshed. Returns ((updated parent, updated inode
counter), result). -/
def Dir.Mkdir (d : Dir) (req : MkdirReq) (ctr now : Nat) :
    (Dir × Nat) × Except Err Dir :=
  match ValidateName req.Name with
  | .error e => ((d, ctr), .error e)
  | .ok _ =>
    if childExists d.Children req.Name then
      ((d, ctr), .error .AlreadyExists)
    else if req.Uid ≠ d.Attributes.Uid then
      ((d, ctr), .error .PermissionDenied)
    else if req.Gid ≠ d.Attributes.Gid then
      ((d, ctr), .error .PermissionDenied)
    else
      let newInode := ctr + 1
      let safePerm := (req.Mode &&& 0o777) &&& 0o777
      let child : Dir := .mk
        { Inode := newInode, Mode := MODE_DIR ||| safePerm, Uid := req.Uid,
          Gid := req.Gid, Size := 0, Atime := now, Mtime := now, Ctime := now }
        .nil d.Config
      let d' : Dir := .mk
        { d.Attributes with Ctime := now, Mtime := now }
        (insertChild d.Children req.Name (.dirN child)) d.Config
      ((d', newInode), .ok child)

/-- `Dir.Remove` (node.go lines 317-346). Check order as in the source:
name validation, presence, owner-uid equality, owner-gid equality; on
success the entry is deleted and the directory's mtime/ctime refreshed. -/
def Dir.Remove (d : Dir) (name : String) (uid gid now : Nat) :
    Dir × Except Err Unit :=
  match ValidateName name with
  | .error e => (d, .error e)
  | .ok _ =>
    if ¬ childExists d.Children name then
      (d, .error .NotFound)
    else if uid ≠ d.Attributes.Uid then
      (d, .error .PermissionDenied)
    else if gid ≠ d.Attributes.Gid then
      (d, .error .PermissionDenied)
    else
      (.mk { d.Attributes with Mtime := now, Ctime := now }
        (eraseChild d.Children name) d.Config, .ok ())

/-- Go's `filepath.Base` on a unix path: `""` gives `"."`; otherwise
trailing separators are stripped, the suffix after the last remaining
separator is taken, and if nothing remains (the path was entirely
separators) a single separator is returned. -/
def filepathBase (path : String) : String :=
  if path = "" then "."
  else
    let rcs := path.toList.reverse
    let stripped := rcs.dropWhile (fun c => c = '/')
    let lastElem := stripped.takeWhile (fun c => c ≠ '/')
    if lastElem.isEmpty then "/" else ⟨lastElem.reverse⟩

/-- The name test `Dir.Rename` applies to each of `req.NewName` and
`req.OldName` (node.go lines 353-361): invalid when the name differs
from its own `filepath.Base` or is `".."` or `"."`. -/
def renameNameInvalid (name : String) : Bool :=
  name ≠ filepathBase name ∨ name = ".." ∨ name = "."

/-- `Dir.Rename` (node.go lines 348-409) for the case where the source
and destination are two distinct directories (`directory ≠ targetDir`;
the same-directory aliasing and the lock acquisition order are treated
by `renameLockOrder`). Check order as in the source: `NewName` then
`OldName` validity, write permission on both directories, presence of
`OldName`; on success the destination's binding at `NewName` (if any) is
silently replaced by the moved child, the source's binding at `OldName`
is deleted, and both directories' mtime/ctime are refreshed. -/
def Dir.Rename (directory targetDir : Dir) (uid gid : Nat)
    (oldName newName : String) (now : Nat) :
    (Dir × Dir) × Except Err Unit :=
  if renameNameInvalid newName then
    ((directory, targetDir), .error .InvalidName)
  else if renameNameInvalid oldName then
    ((directory, targetDir), .error .InvalidName)
  else if ¬ hasWritePermission uid gid directory.Attributes ∨
          ¬ hasWritePermission uid gid targetDir.Attributes then
    ((directory, targetDir), .error .PermissionDenied)
  else
    match childLookup directory.Children oldName with
    | none => ((directory, targetDir), .error .NotFound)
    | some child =>
      let tErased := eraseChild targetDir.Children newName
      let dErased := eraseChild directory.Children oldName
      let d' : Dir := .mk
        { directory.Attributes with Mtime := now, Ctime := now }
        dErased directory.Config
      let t' : Dir := .mk
        { targetDir.Attributes with Mtime := now, Ctime := now }
        (insertChild tErased newName child) targetDir.Config
      ((d', t'), .ok ())

/-- The runtime identity of a live `*Dir`: pointer identity (`id`) plus
its inode number, the two data the rename lock protocol consults. -/
structure DirRef where
  id : Nat
  inode : Nat
deriving DecidableEq, Repr

/-- The lock acquisition sequence of `Dir.Rename` (node.go lines
380-390): `first, second := directory, targetDir`, swapped when
`directory.Attributes.Inode > targetDir.Attributes.Inode`; `first` is
locked, and `second` only when `first != second` (pointer equality). -/
def renameLockOrder (directory targetDir : DirRef) : List DirRef :=
  let fs :=
    if directory.inode > targetDir.inode then (targetDir, directory)
    else (directory, targetDir)
  if fs.1 = fs.2 then [fs.1] else [fs.1, fs.2]

/-! ## The snapshot codec and persistence envelope (serialization.go) -/

/-- `const X25FS_VERSION = 10000`. -/
def X25FS_VERSION : Nat := 10000

mutual
/-- `SerializableDir`: attributes plus the serialized children map. -/
inductive SerializableDir where
  | mk : Attr → SChildren → SerializableDir

/-- `SerializableNode`: the tagged union (`Type` `"dir"` / `"file"`,
with the corresponding payload; a `SerializableFile` is its attribute
and data fields). -/
inductive SerializableNode where
  | dirNode : SerializableDir → SerializableNode
  | fileNode : Attr → List Nat → SerializableNode

/-- The serialized `children` mapping. -/
inductive SChildren where
  | nil : SChildren
  | cons : String → SerializableNode → SChildren → SChildren
end

mutual
/-- `SerializeDir` (serialization.go lines 120-148): the attributes are
copied verbatim and every child is serialized recursively — a `Dir`
child becomes a `"dir"`-tagged node, a `File` child a `"file"`-tagged
node carrying its attributes and raw bytes; the `Config` reference is
not persisted. -/
def SerializeDir : Dir → SerializableDir
  | .mk a cs _ => .mk a (SerializeChildren cs)

/-- The `for name, node := range directory.Children` loop of
`SerializeDir`. -/
def SerializeChildren : ChildList → SChildren
  | .nil => .nil
  | .cons n (.dirN d) rest => .cons n (.dirNode (SerializeDir d)) (SerializeChildren rest)
  | .cons n (.fileN a dat) rest => .cons n (.fileNode a dat) (SerializeChildren rest)
end

mutual
/-- `DeserializeDir` (serialization.go lines 150-170): rebuilds a live
`Dir` with the mirrored attributes (inodes carried verbatim, no
re-allocation), recursively deserialized children, and the supplied
config reference attached to every reconstructed directory. -/
def DeserializeDir : SerializableDir → Nat → Dir
  | .mk a cs, cfg => .mk a (DeserializeChildren cs cfg) cfg

/-- The `for name, node := range sd.Children` loop of `DeserializeDir`. -/
def DeserializeChildren : SChildren → Nat → ChildList
  | .nil, _ => .nil
  | .cons n (.dirNode sd) rest, cfg =>
    .cons n (.dirN (DeserializeDir sd cfg)) (DeserializeChildren rest cfg)
  | .cons n (.fileNode a dat) rest, cfg =>
    .cons n (.fileN a dat) (DeserializeChildren rest cfg)
end

/-- `SerializableX25fs`: the persistence envelope
`{version, root, inode_counter}`. -/
structure SerializableX25fs where
  version : Nat
  root : SerializableDir
  inodeCounter : Nat

/-- The filesystem value served over FUSE: the root directory. -/
structure X25fs where
  RootDir : Dir

/-- The process-wide inode allocator state (`inodeCounter` in node.go). -/
structure AllocState where
  counter : Nat
deriving DecidableEq, Repr

/-- `SaveData` (serialization.go lines 56-81): builds the envelope from
the serialized root, the current allocator value and `X25FS_VERSION`,
then hands it to the opaque pipeline (msgpack encode, then the
encryption provider's `Marshall`, then the atomic file replacement),
abstracted as `enc`. -/
def SaveData (xfs : X25fs) (ctr : Nat) (enc : SerializableX25fs → List Nat) :
    List Nat :=
  enc { version := X25FS_VERSION, root := SerializeDir xfs.RootDir,
        inodeCounter := ctr }

/-- `LoadData` (serialization.go lines 83-118): the opaque read/decrypt/
msgpack-decode pipeline is abstracted as `dec` (returning `none` for any
of its failure modes, mapped to `CorruptPayload`); then the envelope
version is compared against `X25FS_VERSION` and on mismatch the function
returns before `LoadInodeCounter` or `DeserializeDir` run, so the
allocator state `st` passes through unchanged and no tree is built; on
the success path the allocator is seeded from the envelope and the tree
decoded with the supplied config. -/
def LoadData (st : AllocState) (dec : List Nat → Option SerializableX25fs)
    (cfg : Nat) (encrypted : List Nat) : AllocState × Except Err X25fs :=
  match dec encrypted with
  | none => (st, .error .CorruptPayload)
  | some sxfs =>
    if sxfs.version ≠ X25FS_VERSION then
      (st, .error .VersionMismatch)
    else
      ({ counter := sxfs.inodeCounter },
       .ok { RootDir := DeserializeDir sxfs.root cfg })

mutual
/-- Every directory of the tree carries the given config reference —
the invariant every live x25fs tree satisfies, since the root is built
with the process config and `Mkdir` propagates `directory.Config`. -/
def dirConfigUniform (cfg : Nat) : Dir → Bool
  | .mk _ cs g => g == cfg && childrenConfigUniform cfg cs

/-- `dirConfigUniform` over a children map. -/
def childrenConfigUniform (cfg : Nat) : ChildList → Bool
  | .nil => true
  | .cons _ (.dirN d) rest => dirConfigUniform cfg d && childrenConfigUniform cfg rest
  | .cons _ (.fileN _ _) rest => childrenConfigUniform cfg rest
end

/-! ## Concrete sample values used by the witness instantiations -/

/-- A zeroed attribute record (inode 1). -/
def attr0 : Attr :=
  { Inode := 1, Mode := 0, Uid := 0, Gid := 0, Size := 0,
    Atime := 0, Mtime := 0, Ctime := 0 }

/-- A sample file attribute record. -/
def attr1 : Attr :=
  { Inode := 4, Mode := 420, Uid := 0, Gid := 0, Size := 3,
    Atime := 0, Mtime := 0, Ctime := 0 }

/-- A directory attribute record owned by uid 0 / gid 0 with mode 0o777. -/
def attrOwner : Attr :=
  { Inode := 2, Mode := 511, Uid := 0, Gid := 0, Size := 0,
    Atime := 0, Mtime := 0, Ctime := 0 }

/-- A source directory holding one file child `"a"`. -/
def srcDir : Dir := .mk attrOwner (.cons "a" (.fileN attr1 [1]) .nil) 0

/-- An empty destination directory. -/
def dstDir : Dir := .mk { attrOwner with Inode := 3 } .nil 0

/-- A one-file tree whose directories all carry config 7. -/
def sampleRoot : Dir := .mk attrOwner (.cons "f" (.fileN attr1 [1, 2]) .nil) 7

/-- The envelope `SaveData` builds for `sampleRoot` at counter 4. -/
def sampleEnvelope : SerializableX25fs :=
  { version := X25FS_VERSION, root := SerializeDir sampleRoot, inodeCounter := 4 }

/-- A Setattr request selecting mode (0o755) and a size one byte past
the cap. -/
def reqModeAndHugeSize : SetattrRequest :=
  { valid := { mode := true, uid := false, gid := false, atime := false,
               mtime := false, size := true },
    mode := 493, uid := 0, gid := 0, atime := 0, mtime := 0,
    size := 536870913 }

/-- A Setattr request selecting only size (grow to 2 bytes). -/
def reqSizeOnly : SetattrRequest :=
  { valid := { mode := false, uid := false, gid := false, atime := false,
               mtime := false, size := true },
    mode := 0, uid := 0, gid := 0, atime := 0, mtime := 0, size := 2 }

/-! ## Helper lemmas -/

/-- `File.Read` in closed form: the clamped slice is exactly
`take size (drop offset)` of the buffer. -/
theorem File.read_eq (file : File) (offset size : Nat) :
    File.Read file offset size = .ok ((file.Data.drop offset).take size) := by
  simp only [File.Read]
  by_cases h : offset ≥ file.Data.length
  · rw [if_pos h, List.drop_eq_nil_of_le h, List.take_nil]
  · rw [if_neg h]
    by_cases h2 : offset + size > file.Data.length
    · rw [if_pos h2]
      have e1 : List.take (file.Data.length - offset) (file.Data.drop offset) =
          file.Data.drop offset :=
        List.take_of_length_le (by simp [List.length_drop])
      have e2 : List.take size (file.Data.drop offset) = file.Data.drop offset :=
        List.take_of_length_le (by simp [List.length_drop]; omega)
      rw [e1, e2]
    · rw [if_neg h2]
      have e3 : offset + size - offset = size := by omega
      rw [e3]

/-- Overwriting the middle of a buffer and reading it back: dropping the
prefix and taking the overwrite's length recovers the overwrite. -/
theorem drop_take_middle (pre mid post : List Nat) (n : Nat)
    (h : pre.length = n) :
    ((pre ++ (mid ++ post)).drop n).take mid.length = mid := by
  subst h
  rw [List.drop_left, List.take_left]

mutual
/-- Decoding an encoded directory reproduces it exactly, provided its
config references all equal the config supplied at decode time (true of
every live tree, whose config is propagated from the root). -/
theorem deserialize_serialize_dir :
    ∀ (d : Dir) (cfg : Nat), dirConfigUniform cfg d = true →
      DeserializeDir (SerializeDir d) cfg = d
  | .mk a cs g, cfg, h => by
    simp only [dirConfigUniform, Bool.and_eq_true, beq_iff_eq] at h
    simp only [SerializeDir, DeserializeDir]
    rw [deserialize_serialize_children cs cfg h.2, h.1]

/-- `deserialize_serialize_dir` for children maps. -/
theorem deserialize_serialize_children :
    ∀ (cs : ChildList) (cfg : Nat), childrenConfigUniform cfg cs = true →
      DeserializeChildren (SerializeChildren cs) cfg = cs
  | .nil, _, _ => rfl
  | .cons n (.dirN d) rest, cfg, h => by
    simp only [childrenConfigUniform, Bool.and_eq_true] at h
    simp only [SerializeChildren, DeserializeChildren]
    rw [deserialize_serialize_dir d cfg h.1,
        deserialize_serialize_children rest cfg h.2]
  | .cons n (.fileN a dat) rest, cfg, h => by
    simp only [childrenConfigUniform] at h
    simp only [SerializeChildren, DeserializeChildren]
    rw [deserialize_serialize_children rest cfg h]
end

/-! ## Claim theorems -/

/-- C6: `File.Read` returns the requested byte range clamped to the
buffer's current length, an offset at or past end-of-data yields an
empty result, and every path returns without error. -/
theorem read_clamped_total (file : File) (offset size : Nat) :
    File.Read file offset size = .ok ((file.Data.drop offset).take size) ∧
    (offset ≥ file.Data.length → File.Read file offset size = .ok []) := by
  refine ⟨File.read_eq file offset size, fun h => ?_⟩
  rw [File.read_eq file offset size, List.drop_eq_nil_of_le h, List.take_nil]

/-- Witness for C6: reading 2 bytes past the end of a 3-byte file yields
the empty result without error. -/
theorem read_clamped_total_witness :
    File.Read ⟨attr1, [1, 2, 3]⟩ 5 2 = .ok [] :=
  (read_clamped_total ⟨attr1, [1, 2, 3]⟩ 5 2).2 (by decide)

/-- C2: a write whose end offset exceeds `MAX_FILE_SIZE` fails `TooLarge`
and returns the file with buffer and every attribute exactly as before
(the guard precedes all mutation). -/
theorem write_too_large_unchanged (file : File) (offset : Nat)
    (reqData : List Nat) (now : Nat)
    (h : offset + reqData.length > MAX_FILE_SIZE) :
    File.Write file offset reqData now = (file, .error .TooLarge) := by
  simp only [File.Write]
  rw [if_pos h]

/-- Witness for C2: a 1-byte write at offset `MAX_FILE_SIZE` fails
`TooLarge` and leaves the file untouched. -/
theorem write_too_large_unchanged_witness :
    File.Write ⟨attr1, [9]⟩ 536870912 [5] 0 = (⟨attr1, [9]⟩, .error .TooLarge) :=
  write_too_large_unchanged ⟨attr1, [9]⟩ 536870912 [5] 0 (by decide)

/-- C5: a write within the size cap followed by a read at the same
offset and length returns exactly the bytes written. -/
theorem write_read_roundtrip (file : File) (offset : Nat) (bytes : List Nat)
    (now : Nat) (h : offset + bytes.length ≤ MAX_FILE_SIZE) :
    File.Read (File.Write file offset bytes now).1 offset bytes.length =
      .ok bytes := by
  have hg : ¬ (offset + bytes.length > MAX_FILE_SIZE) := by omega
  rw [File.read_eq]
  simp only [File.Write, if_neg hg]
  congr 1
  by_cases h2 : offset + bytes.length > file.Data.length
  · rw [if_pos h2]
    have hlen1 :
        (file.Data ++
          List.replicate (offset + bytes.length - file.Data.length) 0).length =
        offset + bytes.length := by
      simp only [List.length_append, List.length_replicate]; omega
    have hl1 :
        ((file.Data ++
          List.replicate (offset + bytes.length - file.Data.length) 0).take
            offset).length = offset := by
      rw [List.length_take, hlen1]; omega
    rw [List.append_assoc]
    exact drop_take_middle _ _ _ _ hl1
  · rw [if_neg h2, if_neg h2]
    have hl2 : (file.Data.take offset).length = offset := by
      rw [List.length_take]; omega
    rw [List.append_assoc]
    exact drop_take_middle _ _ _ _ hl2

/-- Witness for C5: writing `[7, 8]` at offset 2 of a 3-byte file and
reading 2 bytes at offset 2 returns `[7, 8]`. -/
theorem write_read_roundtrip_witness :
    File.Read (File.Write ⟨attr1, [1, 2, 3]⟩ 2 [7, 8] 0).1 2 2 = .ok [7, 8] :=
  write_read_roundtrip ⟨attr1, [1, 2, 3]⟩ 2 [7, 8] 0 (by decide)

/-- C1: saving a tree and loading the produced image — `DeserializeDir`
applied to the result of `SerializeDir`, carried through the
`SerializableX25fs` envelope — reconstructs the filesystem exactly:
same hierarchy, same attributes (inodes verbatim, no re-allocation) and
same file bytes, with the allocator seeded from the envelope. The
msgpack-encode/encrypt/decrypt/decode pipeline is opaque; `hcodec`
states that it hands back the envelope `SaveData` produced, which is
the claim's "modulo the opaque encryption provider transformation". -/
theorem save_load_roundtrip (xfs : X25fs) (ctr cfg : Nat) (st : AllocState)
    (enc : SerializableX25fs → List Nat)
    (dec : List Nat → Option SerializableX25fs)
    (hcodec : dec (SaveData xfs ctr enc) =
      some { version := X25FS_VERSION, root := SerializeDir xfs.RootDir,
             inodeCounter := ctr })
    (hcfg : dirConfigUniform cfg xfs.RootDir = true) :
    LoadData st dec cfg (SaveData xfs ctr enc) =
      ({ counter := ctr }, .ok xfs) := by
  rw [LoadData, hcodec]
  simp [deserialize_serialize_dir xfs.RootDir cfg hcfg]

/-- Witness for C1: a one-file tree with config 7 survives the save/load
round trip, reseeding the allocator to the saved counter 4. -/
theorem save_load_roundtrip_witness :
    LoadData ⟨9⟩ (fun _ => some sampleEnvelope) 7
        (SaveData ⟨sampleRoot⟩ 4 (fun _ => [])) =
      (⟨4⟩, .ok ⟨sampleRoot⟩) :=
  save_load_roundtrip ⟨sampleRoot⟩ 4 7 ⟨9⟩ (fun _ => [])
    (fun _ => some sampleEnvelope) rfl (by decide)

/-- C9: when the decrypted, decoded envelope carries a version different
from `X25FS_VERSION`, `LoadData` fails `VersionMismatch` before
`LoadInodeCounter` or `DeserializeDir` run: the allocator state passes
through unchanged and no tree value is produced. -/
theorem load_version_mismatch (st : AllocState)
    (dec : List Nat → Option SerializableX25fs) (cfg : Nat)
    (encrypted : List Nat) (sxfs : SerializableX25fs)
    (hdec : dec encrypted = some sxfs) (hv : sxfs.version ≠ X25FS_VERSION) :
    LoadData st dec cfg encrypted = (st, .error .VersionMismatch) := by
  rw [LoadData, hdec]
  simp only [if_pos hv]

/-- Witness for C9: an envelope of version 9999 is rejected with
`VersionMismatch` and the allocator keeps its prior value 3. -/
theorem load_version_mismatch_witness :
    LoadData ⟨3⟩ (fun _ => some ⟨9999, SerializeDir sampleRoot, 4⟩) 7 [] =
      (⟨3⟩, .error .VersionMismatch) :=
  load_version_mismatch ⟨3⟩ (fun _ => some ⟨9999, SerializeDir sampleRoot, 4⟩)
    7 [] ⟨9999, SerializeDir sampleRoot, 4⟩ rfl (by decide)

/-- `applyMaskedAttrs` leaves `Inode` and `Size` untouched, and each of
the five maskable fields untouched when its mask bit is clear. -/
theorem applyMaskedAttrs_preserves (a : Attr) (req : SetattrRequest) :
    (applyMaskedAttrs a req).Inode = a.Inode ∧
    (applyMaskedAttrs a req).Size = a.Size ∧
    (applyMaskedAttrs a req).Ctime = a.Ctime ∧
    (req.valid.mode = false → (applyMaskedAttrs a req).Mode = a.Mode) ∧
    (req.valid.uid = false → (applyMaskedAttrs a req).Uid = a.Uid) ∧
    (req.valid.gid = false → (applyMaskedAttrs a req).Gid = a.Gid) ∧
    (req.valid.atime = false → (applyMaskedAttrs a req).Atime = a.Atime) ∧
    (req.valid.mtime = false → (applyMaskedAttrs a req).Mtime = a.Mtime) := by
  simp only [applyMaskedAttrs]
  split_ifs <;> simp_all

/-- The attribute record `File.Setattr` installs always carries the
masked-field phase's values for mode, uid, gid and atime; mtime as well
when no size update is selected, along with the buffer and size. -/
theorem setattr_fields (file : File) (req : SetattrRequest) (now : Nat) :
    ((File.Setattr file req now).1.Attributes.Mode =
        (applyMaskedAttrs file.Attributes req).Mode) ∧
    ((File.Setattr file req now).1.Attributes.Uid =
        (applyMaskedAttrs file.Attributes req).Uid) ∧
    ((File.Setattr file req now).1.Attributes.Gid =
        (applyMaskedAttrs file.Attributes req).Gid) ∧
    ((File.Setattr file req now).1.Attributes.Atime =
        (applyMaskedAttrs file.Attributes req).Atime) ∧
    (req.valid.size = false →
      (File.Setattr file req now).1.Attributes.Mtime =
        (applyMaskedAttrs file.Attributes req).Mtime ∧
      (File.Setattr file req now).1.Data = file.Data ∧
      (File.Setattr file req now).1.Attributes.Size =
        (applyMaskedAttrs file.Attributes req).Size) := by
  simp only [File.Setattr]
  split_ifs <;> simp_all

/-- C3 (amended): `File.Setattr` preserves every field whose mask bit is
clear — except that a selected size update also refreshes `Mtime` to the
current time; a selected size that shrinks truncates, one that grows
within the cap zero-fills, and one that grows past `MAX_FILE_SIZE`
fails `TooLarge`; on that failure the buffer and the size attribute are
unchanged, but the masked mode/uid/gid/atime/mtime assignments have
already been applied, because they precede the size validation. -/
theorem setattr_semantics (file : File) (req : SetattrRequest) (now : Nat) :
    (req.valid.mode = false →
      (File.Setattr file req now).1.Attributes.Mode = file.Attributes.Mode) ∧
    (req.valid.uid = false →
      (File.Setattr file req now).1.Attributes.Uid = file.Attributes.Uid) ∧
    (req.valid.gid = false →
      (File.Setattr file req now).1.Attributes.Gid = file.Attributes.Gid) ∧
    (req.valid.atime = false →
      (File.Setattr file req now).1.Attributes.Atime = file.Attributes.Atime) ∧
    (req.valid.mtime = false → req.valid.size = false →
      (File.Setattr file req now).1.Attributes.Mtime = file.Attributes.Mtime) ∧
    (req.valid.size = false →
      (File.Setattr file req now).1.Data = file.Data ∧
      (File.Setattr file req now).1.Attributes.Size = file.Attributes.Size) ∧
    (req.valid.size = true → req.size < file.Data.length →
      (File.Setattr file req now).1.Data = file.Data.take req.size ∧
      (File.Setattr file req now).1.Attributes.Size = req.size ∧
      (File.Setattr file req now).1.Attributes.Mtime = now) ∧
    (req.valid.size = true → req.size > file.Data.length →
      req.size ≤ MAX_FILE_SIZE →
      (File.Setattr file req now).1.Data =
        file.Data ++ List.replicate (req.size - file.Data.length) 0 ∧
      (File.Setattr file req now).1.Attributes.Size = req.size) ∧
    (req.valid.size = true → req.size > file.Data.length →
      req.size > MAX_FILE_SIZE →
      File.Setattr file req now =
        ({ Attributes := applyMaskedAttrs file.Attributes req,
           Data := file.Data }, .error .TooLarge)) := by
  obtain ⟨hIno, hSz, hCt, hMo, hUi, hGi, hAt, hMt⟩ :=
    applyMaskedAttrs_preserves file.Attributes req
  obtain ⟨fMo, fUi, fGi, fAt, fRest⟩ := setattr_fields file req now
  refine ⟨fun h => fMo.trans (hMo h), fun h => fUi.trans (hUi h),
    fun h => fGi.trans (hGi h), fun h => fAt.trans (hAt h),
    fun hm hs => ((fRest hs).1).trans (hMt hm),
    fun hs => ⟨(fRest hs).2.1, ((fRest hs).2.2).trans hSz⟩,
    ?_, ?_, ?_⟩
  · intro hs hlt
    have h1 : req.size < file.Data.length := hlt
    simp [File.Setattr, hs, h1]
  · intro hs hgt hle
    have h1 : ¬ (req.size < file.Data.length) := by omega
    have h2 : req.size > file.Data.length := hgt
    have h3 : ¬ (req.size > MAX_FILE_SIZE) := by omega
    simp [File.Setattr, hs, h1, h2, h3]
  · intro hs hgt hmax
    have h1 : ¬ (req.size < file.Data.length) := by omega
    simp [File.Setattr, hs, h1, hgt, hmax]

/-- C3 counterexample: at a concrete input the original claim fails
twice over — a request selecting mode and an over-cap size fails
`TooLarge` yet has already changed the mode field, and a request
selecting only size changes `Mtime` even though the mtime bit is not in
the mask. -/
theorem setattr_failure_not_atomic :
    (File.Setattr ⟨attr0, []⟩ reqModeAndHugeSize 7).2 = .error .TooLarge ∧
    (File.Setattr ⟨attr0, []⟩ reqModeAndHugeSize 7).1.Attributes.Mode = 493 ∧
    attr0.Mode = 0 ∧
    reqSizeOnly.valid.mtime = false ∧
    (File.Setattr ⟨attr0, []⟩ reqSizeOnly 7).1.Attributes.Mtime = 7 ∧
    attr0.Mtime = 0 :=
  ⟨rfl, rfl, rfl, rfl, rfl, rfl⟩

/-- Witness for C3 (amended): shrinking a 3-byte file to size 2
truncates the buffer and sets the size attribute. -/
theorem setattr_semantics_witness :
    (File.Setattr ⟨attr1, [1, 2, 3]⟩ reqSizeOnly 7).1.Data = [1, 2] ∧
    (File.Setattr ⟨attr1, [1, 2, 3]⟩ reqSizeOnly 7).1.Attributes.Size = 2 := by
  have h := (setattr_semantics ⟨attr1, [1, 2, 3]⟩ reqSizeOnly 7).2.2.2.2.2.2.1
    (by decide) (by decide)
  exact ⟨h.1.trans (by decide), h.2.1⟩

/-- C4: the rename lock acquisition sequence is a total order derived
from inode number — with unique inodes (`huniq`), the same directory
yields a single lock, and two distinct directories are always locked
lower-inode first, higher second, in the same sequence regardless of
which is source and which destination, so two concurrent renames over
the same pair acquire in identical order and cannot circular-wait. -/
theorem rename_lock_order_total (d t : DirRef)
    (huniq : d.inode = t.inode → d = t) :
    (d = t → renameLockOrder d t = [d]) ∧
    renameLockOrder d t = renameLockOrder t d ∧
    (d ≠ t →
      renameLockOrder d t =
        [if d.inode < t.inode then d else t,
         if d.inode < t.inode then t else d] ∧
      (if d.inode < t.inode then d else t).inode <
        (if d.inode < t.inode then t else d).inode) := by
  rcases Nat.lt_trichotomy d.inode t.inode with hlt | heq | hgt
  · have hne : d ≠ t := fun he => by rw [he] at hlt; omega
    have h1 : ¬ d.inode > t.inode := by omega
    refine ⟨fun he => absurd he hne, ?_, fun _ => ⟨?_, ?_⟩⟩
    · simp [renameLockOrder, h1, hlt, hne]
    · simp [renameLockOrder, h1, hlt, hne]
    · simp [hlt]
  · have he : d = t := huniq heq
    subst he
    exact ⟨fun _ => by simp [renameLockOrder], rfl,
      fun hne => absurd rfl hne⟩
  · have hne : d ≠ t := fun he => by rw [he] at hgt; omega
    have h1 : ¬ d.inode < t.inode := by omega
    refine ⟨fun he => absurd he hne, ?_, fun _ => ⟨?_, ?_⟩⟩
    · simp [renameLockOrder, h1, hgt, hne, Ne.symm hne]
    · simp [renameLockOrder, h1, hgt, hne, Ne.symm hne]
    · simp [h1, hgt]

/-- Witness for C4: for inodes 10 < 20 the two opposite rename calls
acquire the locks in the same sequence. -/
theorem rename_lock_order_total_witness :
    renameLockOrder ⟨1, 10⟩ ⟨2, 20⟩ = renameLockOrder ⟨2, 20⟩ ⟨1, 10⟩ :=
  (rename_lock_order_total ⟨1, 10⟩ ⟨2, 20⟩ (by decide)).2.1

/-- C7: `Dir.Mkdir` and `Dir.Remove` enforce exact ownership equality,
not a permission-bit evaluation: with a valid, available (resp. present)
name they fail `PermissionDenied` — leaving the directory and the inode
counter untouched — whenever the caller's uid or gid differs from the
directory's owner, and succeed whenever both match, for every value of
the directory's mode bits (the directory's attributes are universally
quantified, so no mode bit is consulted). -/
theorem mkdir_remove_ownership (d : Dir) (req : MkdirReq) (ctr now : Nat)
    (name : String) (uid gid rnow : Nat) :
    (ValidateName req.Name = .ok () → childExists d.Children req.Name = false →
      req.Uid ≠ d.Attributes.Uid ∨ req.Gid ≠ d.Attributes.Gid →
      Dir.Mkdir d req ctr now = ((d, ctr), .error .PermissionDenied)) ∧
    (ValidateName req.Name = .ok () → childExists d.Children req.Name = false →
      req.Uid = d.Attributes.Uid → req.Gid = d.Attributes.Gid →
      ∃ child, (Dir.Mkdir d req ctr now).2 = .ok child) ∧
    (ValidateName name = .ok () → childExists d.Children name = true →
      uid ≠ d.Attributes.Uid ∨ gid ≠ d.Attributes.Gid →
      Dir.Remove d name uid gid rnow = (d, .error .PermissionDenied)) ∧
    (ValidateName name = .ok () → childExists d.Children name = true →
      uid = d.Attributes.Uid → gid = d.Attributes.Gid →
      (Dir.Remove d name uid gid rnow).2 = .ok ()) := by
  refine ⟨?_, ?_, ?_, ?_⟩
  · intro hv hex hor
    by_cases hu : req.Uid = d.Attributes.Uid
    · have hg : req.Gid ≠ d.Attributes.Gid := by
        rcases hor with h | h
        · exact absurd hu h
        · exact h
      simp [Dir.Mkdir, hv, hex, hu, hg]
    · simp [Dir.Mkdir, hv, hex, hu]
  · intro hv hex hu hg
    simp [Dir.Mkdir, hv, hex, hu, hg]
  · intro hv hex hor
    by_cases hu : uid = d.Attributes.Uid
    · have hg : gid ≠ d.Attributes.Gid := by
        rcases hor with h | h
        · exact absurd hu h
        · exact h
      simp [Dir.Remove, hv, hex, hu, hg]
    · simp [Dir.Remove, hv, hex, hu]
  · intro hv hex hu hg
    simp [Dir.Remove, hv, hex, hu, hg]

/-- Witness for C7: a caller whose uid differs from the owner is denied
`Mkdir`, and the owner's `Remove` of an existing child succeeds even on
a directory with mode 0 (no permission bits at all). -/
theorem mkdir_remove_ownership_witness :
    Dir.Mkdir (.mk attr0 .nil 0) ⟨"x", 448, 6, 0⟩ 10 3 =
      (((.mk attr0 .nil 0 : Dir), 10), .error .PermissionDenied) ∧
    (Dir.Remove (.mk attr0 (.cons "a" (.fileN attr1 []) .nil) 0)
        "a" 0 0 3).2 = .ok () :=
  ⟨(mkdir_remove_ownership (.mk attr0 .nil 0) ⟨"x", 448, 6, 0⟩ 10 3
      "a" 0 0 3).1 (by rfl) (by decide) (Or.inl (by decide)),
   (mkdir_remove_ownership (.mk attr0 (.cons "a" (.fileN attr1 []) .nil) 0)
      ⟨"x", 448, 6, 0⟩ 10 3 "a" 0 0 3).2.2.2
      (by rfl) (by decide) (by decide) (by decide)⟩

/-- C10: the directory `Dir.Mkdir` creates carries mode
`os.ModeDir | (req.Mode.Perm() & 0o777)` — the directory type flag
combined with the requested permission bits masked to `0o777` — so the
setuid (bit 23), setgid (bit 22) and sticky (bit 20) flags of the Go
`os.FileMode` are never set on it, whatever the request contained. -/
theorem mkdir_mode_sanitized (d : Dir) (req : MkdirReq) (ctr now : Nat)
    (hv : ValidateName req.Name = .ok ())
    (hex : childExists d.Children req.Name = false)
    (hu : req.Uid = d.Attributes.Uid) (hg : req.Gid = d.Attributes.Gid) :
    ∃ child, (Dir.Mkdir d req ctr now).2 = .ok child ∧
      child.Attributes.Mode = MODE_DIR ||| (req.Mode &&& 0o777) ∧
      child.Attributes.Mode.testBit 23 = false ∧
      child.Attributes.Mode.testBit 22 = false ∧
      child.Attributes.Mode.testBit 20 = false := by
  have hmask : (req.Mode &&& 0o777) &&& 0o777 = req.Mode &&& 0o777 := by
    rw [Nat.land_assoc]
    norm_num
  have hlow : ∀ i : Nat, Nat.testBit 511 i = false → Nat.testBit 2147483648 i = false →
      (MODE_DIR ||| (req.Mode &&& 0o777)).testBit i = false := by
    intro i h511 hdir
    have hdir2 : Nat.testBit MODE_DIR i = false := hdir
    rw [Nat.testBit_lor, Nat.testBit_land, h511, hdir2]
    simp
  refine ⟨.mk
      { Inode := ctr + 1, Mode := MODE_DIR ||| ((req.Mode &&& 0o777) &&& 0o777),
        Uid := req.Uid, Gid := req.Gid, Size := 0, Atime := now, Mtime := now,
        Ctime := now } .nil d.Config, ?_, ?_, ?_, ?_, ?_⟩
  · simp [Dir.Mkdir, hv, hex, hu, hg]
  · simp only [Dir.Attributes, hmask]
  · simp only [Dir.Attributes, hmask]
    exact hlow 23 (by decide) (by decide)
  · simp only [Dir.Attributes, hmask]
    exact hlow 22 (by decide) (by decide)
  · simp only [Dir.Attributes, hmask]
    exact hlow 20 (by decide) (by decide)

/-- Witness for C10: a Mkdir request carrying mode bits
`0o777 ||| setuid ||| setgid ||| sticky` (as `os.FileMode` bits) yields
a directory whose mode is exactly `MODE_DIR ||| 0o777`. -/
theorem mkdir_mode_sanitized_witness :
    ∃ child,
      (Dir.Mkdir (.mk attr0 .nil 0) ⟨"s", 13632000, 0, 0⟩ 10 3).2 =
        .ok child ∧
      child.Attributes.Mode = MODE_DIR ||| (13632000 &&& 0o777) ∧
      child.Attributes.Mode.testBit 23 = false ∧
      child.Attributes.Mode.testBit 22 = false ∧
      child.Attributes.Mode.testBit 20 = false :=
  mkdir_mode_sanitized (.mk attr0 .nil 0) ⟨"s", 13632000, 0, 0⟩ 10 3
    (by rfl) (by decide) (by decide) (by decide)

/-- C8 counterexample: the claim says Rename rejects any name containing
a separator with `InvalidName`, but a name consisting of a single
separator satisfies `name == filepath.Base(name)` (Go's `Base` returns
`"/"` for an all-separator path), so renaming `"a"` to `"/"` succeeds. -/
theorem rename_accepts_separator_only_name :
    "/".toList.contains '/' = true ∧
    (Dir.Rename srcDir dstDir 0 0 "a" "/" 9).2 = .ok () := by
  exact ⟨by decide, rfl⟩

/-- C8 (amended): `Dir.Rename` fails `InvalidName` when either name is
invalid under the source's test — the name differs from its own
`filepath.Base` (which rejects the empty name and every name containing
a separator except a name that is entirely separators, such as `"/"`)
or is `"."` or `".."`; fails `PermissionDenied` unless the caller has
bit-evaluated write permission on both directories; fails `NotFound`
when `oldName` is absent from the source; and on success silently
replaces any existing destination entry at `newName` (no
`AlreadyExists`), moves the child reference, and refreshes both
directories' timestamps. -/
theorem rename_semantics (directory targetDir : Dir) (uid gid : Nat)
    (oldName newName : String) (now : Nat) :
    ((newName = "" ∨ newName = "." ∨ newName = "..") →
      (Dir.Rename directory targetDir uid gid oldName newName now).2 =
        .error .InvalidName) ∧
    (renameNameInvalid newName = true ∨ renameNameInvalid oldName = true →
      Dir.Rename directory targetDir uid gid oldName newName now =
        ((directory, targetDir), .error .InvalidName)) ∧
    (renameNameInvalid newName = false → renameNameInvalid oldName = false →
      (hasWritePermission uid gid directory.Attributes = false ∨
       hasWritePermission uid gid targetDir.Attributes = false) →
      Dir.Rename directory targetDir uid gid oldName newName now =
        ((directory, targetDir), .error .PermissionDenied)) ∧
    (renameNameInvalid newName = false → renameNameInvalid oldName = false →
      hasWritePermission uid gid directory.Attributes = true →
      hasWritePermission uid gid targetDir.Attributes = true →
      childLookup directory.Children oldName = none →
      Dir.Rename directory targetDir uid gid oldName newName now =
        ((directory, targetDir), .error .NotFound)) ∧
    (∀ child,
      renameNameInvalid newName = false → renameNameInvalid oldName = false →
      hasWritePermission uid gid directory.Attributes = true →
      hasWritePermission uid gid targetDir.Attributes = true →
      childLookup directory.Children oldName = some child →
      Dir.Rename directory targetDir uid gid oldName newName now =
        ((.mk { directory.Attributes with Mtime := now, Ctime := now }
            (eraseChild directory.Children oldName) directory.Config,
          .mk { targetDir.Attributes with Mtime := now, Ctime := now }
            (insertChild (eraseChild targetDir.Children newName) newName child)
            targetDir.Config),
         .ok ())) := by
  have main2 : renameNameInvalid newName = true ∨ renameNameInvalid oldName = true →
      Dir.Rename directory targetDir uid gid oldName newName now =
        ((directory, targetDir), .error .InvalidName) := by
    intro h
    by_cases hnew : renameNameInvalid newName = true
    · simp [Dir.Rename, hnew]
    · have hold : renameNameInvalid oldName = true := by
        rcases h with h | h
        · exact absurd h hnew
        · exact h
      simp [Dir.Rename, hnew, hold]
  refine ⟨?_, main2, ?_, ?_, ?_⟩
  · intro h
    have hi : renameNameInvalid newName = true := by
      rcases h with h | h | h <;> subst h <;> decide
    rw [main2 (Or.inl hi)]
  · intro hnew hold hperm
    simp [Dir.Rename, hnew, hold, hperm]
  · intro hnew hold hw1 hw2 hlook
    simp [Dir.Rename, hnew, hold, hw1, hw2, hlook]
  · intro child hnew hold hw1 hw2 hlook
    simp [Dir.Rename, hnew, hold, hw1, hw2, hlook, insertChild]

/-- Witness for C8 (amended): renaming `"a"` to `"b"` across two
directories writable by the caller moves the child and stamps both
directories. -/
theorem rename_semantics_witness :
    Dir.Rename srcDir dstDir 0 0 "a" "b" 9 =
      ((.mk { srcDir.Attributes with Mtime := 9, Ctime := 9 }
          (eraseChild srcDir.Children "a") srcDir.Config,
        .mk { dstDir.Attributes with Mtime := 9, Ctime := 9 }
          (insertChild (eraseChild dstDir.Children "b") "b" (.fileN attr1 [1]))
          dstDir.Config),
       .ok ()) :=
  (rename_semantics srcDir dstDir 0 0 "a" "b" 9).2.2.2.2
    (.fileN attr1 [1]) (by decide) (by decide) (by decide) (by decide) rfl
